import Mathlib

/-!
# Apartment Manager: record store, derived flag, bulk import and export

A shallow embedding of `apartment-manager/main.go`.

* The SQLite table `apartments (id TEXT PRIMARY KEY, owner, resident, same_flag INTEGER)`
  is a list of rows; the four SQL statements the program issues are the primitives
  `queryExists`, `execInsert`, `execUpdate`, `execDelete` and `orderById`.
* A Go `error` result is `Option GoError` (`none` is `nil`).  Every database or file
  operation that can fail for reasons outside the program takes its outcome from an
  explicit fault argument (`none`: the operation works, `some msg`: it fails with `msg`).
  A failing statement leaves the table as it was, and a transaction works on a private
  copy of the table that replaces the table only when `Commit` succeeds.
* The importers take the records their codec hands over and the exporters return the
  rows they hand to their codec.  What `encoding/csv` reads back from a written file is
  `csvReader`; the spreadsheet codec is not modelled, and a statement that needs the rows
  `GetRows` returns takes them as an argument.
-/

namespace ApartmentManager

/-! ## Data model -/

/-- The Go struct `Apartment`. -/
structure Apartment where
  ID : String
  Owner : String
  Resident : String
  SameFlag : Bool
deriving DecidableEq, Repr

/-- The zero value `Apartment{}`. -/
def Apartment.zero : Apartment := ⟨"", "", "", false⟩

/-- One row of the table `apartments`. -/
structure Row where
  id : String
  owner : String
  resident : String
  same_flag : Int
deriving DecidableEq, Repr

/-- The content of the table `apartments`. -/
abbrev DB := List Row

/-- The `PRIMARY KEY` constraint on column `id`. -/
def PrimaryKey (db : DB) : Prop := (db.map Row.id).Nodup

instance (db : DB) : Decidable (PrimaryKey db) := by
  unfold PrimaryKey
  infer_instance

/-- Go error values: `sql.ErrNoRows`, `io.EOF`, and every other error with its message. -/
inductive GoError where
  | ErrNoRows
  | EOF
  | failure (msg : String)
deriving DecidableEq, Repr

/-! ## Derived flag and integer encoding -/

/-- `updateSameFlag`: `apt.SameFlag = apt.Owner != "" && apt.Owner == apt.Resident`. -/
def updateSameFlag (apt : Apartment) : Apartment :=
  ⟨apt.ID, apt.Owner, apt.Resident, apt.Owner != "" && apt.Owner == apt.Resident⟩

/-- `boolToInt`. -/
def boolToInt (b : Bool) : Int := if b then 1 else 0

/-- `intToBool`: `i == 1`. -/
def intToBool (i : Int) : Bool := i == 1

/-! ## SQL primitives -/

/-- `SELECT 1 FROM apartments WHERE id = ?` followed by `Scan`: `nil` when a row
exists, `sql.ErrNoRows` when none does, the fault when the query fails. -/
def queryExists (db : DB) (fault : Option String) (id : String) : Option GoError :=
  match fault with
  | some msg => some (GoError.failure msg)
  | none => if db.any (fun r => r.id == id) then none else some GoError.ErrNoRows

/-- `INSERT INTO apartments (id, owner, resident, same_flag) VALUES (?, ?, ?, ?)`.
The primary key rejects an id that is already stored. -/
def execInsert (db : DB) (fault : Option String) (row : Row) : DB × Option GoError :=
  match fault with
  | some msg => (db, some (GoError.failure msg))
  | none =>
    if db.any (fun r => r.id == row.id) then
      (db, some (GoError.failure "UNIQUE constraint failed: apartments.id"))
    else (db ++ [row], none)

/-- `UPDATE apartments SET owner = ?, resident = ?, same_flag = ? WHERE id = ?`. -/
def execUpdate (db : DB) (fault : Option String) (owner resident : String) (same_flag : Int)
    (id : String) : DB × Option GoError :=
  match fault with
  | some msg => (db, some (GoError.failure msg))
  | none => (db.map (fun r => if r.id == id then Row.mk r.id owner resident same_flag else r), none)

/-- `DELETE FROM apartments WHERE id = ?`. -/
def execDelete (db : DB) (fault : Option String) (id : String) : DB × Option GoError :=
  match fault with
  | some msg => (db, some (GoError.failure msg))
  | none => (db.filter (fun r => r.id != id), none)

/-- Lexicographic comparison of code-point sequences. -/
def lexLe : List Nat → List Nat → Bool
  | [], _ => true
  | _ :: _, [] => false
  | a :: as, b :: bs => a < b || (a == b && lexLe as bs)

/-- The code points of a string. -/
def codes (s : String) : List Nat := s.data.map Char.toNat

/-- The order of `ORDER BY id`: SQLite compares `TEXT` values under the `BINARY`
collation byte by byte, which on UTF-8 text is the lexicographic order of the code points. -/
def idLe (a b : String) : Bool := lexLe (codes a) (codes b)

/-- The rows of `SELECT ... FROM apartments ORDER BY id`. -/
def orderById (db : DB) : List Row :=
  db.insertionSort (fun a b => idLe a.id b.id = true)

/-! ## Record store -/

/-- Faults of the two statements of `saveApartment`. -/
structure SaveFaults where
  queryErr : Option String
  execErr : Option String

/-- No statement fails. -/
def SaveFaults.none : SaveFaults := ⟨Option.none, Option.none⟩

/-- `saveApartment`: existence query, resident normalisation, `updateSameFlag`, then
`INSERT` when the query reported `sql.ErrNoRows` and `UPDATE` otherwise. -/
def saveApartment (db : DB) (f : SaveFaults) (apt : Apartment) : DB × Option GoError :=
  let err := queryExists db f.queryErr apt.ID
  if err ≠ none ∧ err ≠ some GoError.ErrNoRows then (db, err)
  else
    let apt1 : Apartment := if apt.Resident = "" then ⟨apt.ID, apt.Owner, "Vacant", apt.SameFlag⟩ else apt
    let apt2 := updateSameFlag apt1
    if err = some GoError.ErrNoRows then
      execInsert db f.execErr ⟨apt2.ID, apt2.Owner, apt2.Resident, boolToInt apt2.SameFlag⟩
    else
      execUpdate db f.execErr apt2.Owner apt2.Resident (boolToInt apt2.SameFlag) apt2.ID

/-- `deleteApartment`. -/
def deleteApartment (db : DB) (fault : Option String) (id : String) : DB × Option GoError :=
  execDelete db fault id

/-- `getApartmentCount`: `SELECT COUNT(*)`, and 0 when the query fails. -/
def getApartmentCount (db : DB) (fault : Option String) : Int :=
  match fault with
  | some _ => 0
  | none => (db.length : Int)

/-- `getApartmentByIndex`: `... ORDER BY id LIMIT 1 OFFSET ?`.  SQLite reads a negative
offset as 0.  A failing query or an exhausted result gives the zero value, a failing
`Scan` gives `Apartment{}`. -/
def getApartmentByIndex (db : DB) (queryErr scanErr : Option String) (index : Int) : Apartment :=
  match queryErr with
  | some _ => Apartment.zero
  | none =>
    match ((orderById db).drop index.toNat).head? with
    | Option.none => Apartment.zero
    | some r =>
      match scanErr with
      | some _ => Apartment.zero
      | none => ⟨r.id, r.owner, r.resident, intToBool r.same_flag⟩

/-- The handler of the Save button, as far as the store is concerned: it copies the three
entry texts into `currentApartment` (an empty resident entry becomes `"Vacant"`), shows
the error `apartment ID cannot be empty` and returns when the id is empty, and otherwise
calls `saveApartment`.  The second component is the error shown in the dialog. -/
def saveBtnTapped (db : DB) (f : SaveFaults) (currentApartment : Apartment)
    (idText ownerText residentText : String) : DB × Option GoError :=
  let cur : Apartment :=
    ⟨idText, ownerText, if residentText = "" then "Vacant" else residentText,
      currentApartment.SameFlag⟩
  if cur.ID = "" then (db, some (GoError.failure "apartment ID cannot be empty"))
  else saveApartment db f cur

/-! ## Bulk import -/

/-- Faults of one bulk import: opening the file (`os.Open`, `excelize.OpenFile`),
`GetRows`, `db.Begin`, the existence query and the insert or update of file row `i`
(the header is row 0), and `tx.Commit`. -/
structure ImportFaults where
  openErr : Option String
  getRowsErr : Option String
  beginErr : Option String
  queryErr : Nat → Option String
  execErr : Nat → Option String
  commitErr : Option String

/-- No operation fails. -/
def ImportFaults.none : ImportFaults :=
  ⟨Option.none, Option.none, Option.none, fun _ => Option.none, fun _ => Option.none, Option.none⟩

/-- The body both import loops run on a row with at least 3 columns: build the record
from columns 0, 1, 2, replace an empty resident by `"Vacant"`, `updateSameFlag`, query
the transaction for the id, then `INSERT` or `UPDATE` inside the transaction.  The
result is the transaction's table and the value of `err` at the end of the body; the
loop rolls back and returns when it is not `nil`. -/
def importRow (tx : DB) (queryErr execErr : Option String) (record : List String) :
    DB × Option GoError :=
  let apt0 : Apartment := ⟨record.getD 0 "", record.getD 1 "", record.getD 2 "", false⟩
  let apt1 : Apartment := if apt0.Resident = "" then ⟨apt0.ID, apt0.Owner, "Vacant", apt0.SameFlag⟩ else apt0
  let apt := updateSameFlag apt1
  let err := queryExists tx queryErr apt.ID
  if err ≠ none ∧ err ≠ some GoError.ErrNoRows then (tx, err)
  else if err = some GoError.ErrNoRows then
    execInsert tx execErr ⟨apt.ID, apt.Owner, apt.Resident, boolToInt apt.SameFlag⟩
  else
    execUpdate tx execErr apt.Owner apt.Resident (boolToInt apt.SameFlag) apt.ID

/-- The loop of `importFromCSV` from file row `i` on.  Each element of the reader is one
`reader.Read()`: a record or an error; the end of the list is `io.EOF`. -/
def csvLoop (f : ImportFaults) : Nat → DB → List (Except String (List String)) → Except GoError DB
  | _, tx, [] => Except.ok tx
  | _, _, Except.error msg :: _ => Except.error (GoError.failure msg)
  | i, tx, Except.ok record :: rest =>
    if record.length < 3 then csvLoop f (i + 1) tx rest
    else
      match (importRow tx (f.queryErr i) (f.execErr i) record).2 with
      | some e => Except.error e
      | Option.none => csvLoop f (i + 1) (importRow tx (f.queryErr i) (f.execErr i) record).1 rest

/-- `importFromCSV`.  An error return after `Begin` goes through `tx.Rollback()`, so the
table is the one before the call; the table changes only by a successful `Commit`. -/
def importFromCSV (db : DB) (f : ImportFaults) (reader : List (Except String (List String))) :
    DB × Option GoError :=
  match f.openErr with
  | some msg => (db, some (GoError.failure msg))
  | none =>
    match reader with
    | [] => (db, some GoError.EOF)
    | Except.error msg :: _ => (db, some (GoError.failure msg))
    | Except.ok _ :: rest =>
      match f.beginErr with
      | some msg => (db, some (GoError.failure msg))
      | none =>
        match csvLoop f 1 db rest with
        | Except.error e => (db, some e)
        | Except.ok tx =>
          match f.commitErr with
          | some msg => (db, some (GoError.failure msg))
          | none => (tx, Option.none)

/-- The loop of `importFromExcel` over `rows[i], rows[i+1], ...`. -/
def excelLoop (f : ImportFaults) : Nat → DB → List (List String) → Except GoError DB
  | _, tx, [] => Except.ok tx
  | i, tx, row :: rest =>
    if row.length < 3 then excelLoop f (i + 1) tx rest
    else
      match (importRow tx (f.queryErr i) (f.execErr i) row).2 with
      | some e => Except.error e
      | Option.none => excelLoop f (i + 1) (importRow tx (f.queryErr i) (f.execErr i) row).1 rest

/-- `importFromExcel` on the rows `GetRows` returns for the first sheet. -/
def importFromExcel (db : DB) (f : ImportFaults) (rows : List (List String)) :
    DB × Option GoError :=
  match f.openErr with
  | some msg => (db, some (GoError.failure msg))
  | none =>
    match f.getRowsErr with
    | some msg => (db, some (GoError.failure msg))
    | none =>
      if rows.length < 2 then (db, some (GoError.failure "not enough rows in Excel file"))
      else
        match f.beginErr with
        | some msg => (db, some (GoError.failure msg))
        | none =>
          match excelLoop f 1 db (rows.drop 1) with
          | Except.error e => (db, some e)
          | Except.ok tx =>
            match f.commitErr with
            | some msg => (db, some (GoError.failure msg))
            | none => (tx, Option.none)

/-! ## Bulk export -/

/-- Faults of one export: creating the file (`os.Create`) or the header style
(`f.NewStyle`), writing the header, the query, `Scan` and the write of result row `i`,
and `f.SaveAs`. -/
structure ExportFaults where
  createErr : Option String
  headerErr : Option String
  queryErr : Option String
  scanErr : Nat → Option String
  writeErr : Nat → Option String
  saveErr : Option String

/-- No operation fails. -/
def ExportFaults.none : ExportFaults :=
  ⟨Option.none, Option.none, Option.none, fun _ => Option.none, fun _ => Option.none, Option.none⟩

/-- The header row both exporters write. -/
def exportHeader : List String := ["Apartment ID", "Owner", "Resident", "Owner is Resident"]

/-- The fourth column: `"Yes"` when `sameFlag == 1`, `"No"` otherwise. -/
def sameStatus (same_flag : Int) : String := if same_flag = 1 then "Yes" else "No"

/-- The data row written for one stored row. -/
def exportRow (r : Row) : List String := [r.id, r.owner, r.resident, sameStatus r.same_flag]

/-- The `for rows.Next()` loop of both exporters: `out` is what has been written so far. -/
def exportLoop (f : ExportFaults) : Nat → List (List String) → List Row →
    List (List String) × Option GoError
  | _, out, [] => (out, Option.none)
  | i, out, r :: rest =>
    match f.scanErr i with
    | some msg => (out, some (GoError.failure msg))
    | none =>
      match f.writeErr i with
      | some msg => (out, some (GoError.failure msg))
      | none => exportLoop f (i + 1) (out ++ [exportRow r]) rest

/-- `exportToCSV`: the rows handed to the CSV writer (`none` when the file could not be
created) and the returned error. -/
def exportToCSV (db : DB) (f : ExportFaults) : Option (List (List String)) × Option GoError :=
  match f.createErr with
  | some msg => (Option.none, some (GoError.failure msg))
  | none =>
    match f.headerErr with
    | some msg => (some [], some (GoError.failure msg))
    | none =>
      match f.queryErr with
      | some msg => (some [exportHeader], some (GoError.failure msg))
      | none =>
        let res := exportLoop f 0 [exportHeader] (orderById db)
        (some res.1, res.2)

/-- `exportToExcel`: the rows of `Sheet1` in the saved workbook (`none` when no workbook
was saved) and the returned error.  Cells are set in memory, so only `Scan` can fail
inside the loop, and the file exists only after `SaveAs`. -/
def exportToExcel (db : DB) (f : ExportFaults) : Option (List (List String)) × Option GoError :=
  match f.createErr with
  | some msg => (Option.none, some (GoError.failure msg))
  | none =>
    match f.queryErr with
    | some msg => (Option.none, some (GoError.failure msg))
    | none =>
      let res := exportLoop ⟨Option.none, Option.none, Option.none, f.scanErr, fun _ => Option.none, Option.none⟩
        0 [exportHeader] (orderById db)
      match res.2 with
      | some e => (Option.none, some e)
      | Option.none =>
        match f.saveErr with
        | some msg => (Option.none, some (GoError.failure msg))
        | none => (some res.1, Option.none)

/-! ## CSV codec

`exportToCSV` writes with `csv.NewWriter` and `importFromCSV` reads with `csv.NewReader`,
both with their default settings.  Go's `encoding/csv` documents for the reader: blank
lines are ignored; carriage returns before newline characters are silently removed;
with `FieldsPerRecord` left at 0 the first record fixes the number of fields every later
record must have.  The writer quotes a field where needed, so that apart from these three
points a written record is read back as it was written. -/

/-- Removal of every carriage return that stands directly before a line feed. -/
def crlfToLfChars : List Char → List Char
  | [] => []
  | c :: rest =>
    if c = '\r' ∧ rest.head? = some '\n' then crlfToLfChars rest else c :: crlfToLfChars rest

/-- A field as the reader returns it. -/
def crlfToLf (s : String) : String := ⟨crlfToLfChars s.data⟩

/-- Whether a carriage return directly followed by a line feed occurs. -/
def hasCRLFChars : List Char → Bool
  | [] => false
  | c :: rest => (c == '\r' && rest.head? == some '\n') || hasCRLFChars rest

/-- Whether the string contains a carriage return directly followed by a line feed. -/
def hasCRLF (s : String) : Bool := hasCRLFChars s.data

/-- The records the writer puts out as an empty line: no field, or one empty field. -/
def csvBlank (record : List String) : Bool := record == [] || record == [""]

/-- The results of the successive `reader.Read()` calls on a file written record by
record with the CSV writer: blank lines are skipped, the first record is returned with
its line endings normalised, and every later record is returned likewise when it has as
many fields as the first and as the error `ErrFieldCount` otherwise. -/
def csvReader (rows : List (List String)) : List (Except String (List String)) :=
  match rows.filter (fun record => !csvBlank record) with
  | [] => []
  | first :: rest =>
    Except.ok (first.map crlfToLf) ::
      rest.map (fun record =>
        if record.length = first.length then Except.ok (record.map crlfToLf)
        else Except.error "wrong number of fields")

/-! ## Reachable stores -/

/-- The stores the program can reach from the empty table of `initDB`. -/
inductive Reachable : DB → Prop where
  | init : Reachable []
  | save (db : DB) (f : SaveFaults) (apt : Apartment) :
      Reachable db → Reachable (saveApartment db f apt).1
  | delete (db : DB) (fault : Option String) (id : String) :
      Reachable db → Reachable (deleteApartment db fault id).1
  | importCSV (db : DB) (f : ImportFaults) (reader : List (Except String (List String))) :
      Reachable db → Reachable (importFromCSV db f reader).1
  | importExcel (db : DB) (f : ImportFaults) (rows : List (List String)) :
      Reachable db → Reachable (importFromExcel db f rows).1

/-! ## Specification-side definitions -/

/-- The record a bulk loader builds from columns 0, 1, 2 of a row. -/
def aptOfRow (row : List String) : Apartment :=
  ⟨row.getD 0 "", row.getD 1 "", row.getD 2 "", false⟩

/-- The data rows of a file that are loaded: the header is dropped, and so is every
remaining row with fewer than 3 columns. -/
def validRows (rows : List (List String)) : List (List String) :=
  (rows.drop 1).filter (fun row => decide (3 ≤ row.length))

/-- The bulk load as the specification words it: `saveApartment`, without storage
failure, applied in file order to the record of every valid data row. -/
def specLoad (db : DB) (rows : List (List String)) : DB :=
  (validRows rows).foldl (fun t row => (saveApartment t SaveFaults.none (aptOfRow row)).1) db

/-- The row an upsert stores for an id, an owner and a resident as supplied. -/
def normRow (id owner resident : String) : Row :=
  ⟨id, owner, if resident = "" then "Vacant" else resident,
    boolToInt (owner != "" && owner == (if resident = "" then "Vacant" else resident))⟩

/-- Insert-or-replace on the table. -/
def upsert (db : DB) (row : Row) : DB :=
  if row.id ∈ db.map Row.id then
    db.map (fun r => if r.id == row.id then Row.mk r.id row.owner row.resident row.same_flag else r)
  else db ++ [row]

/-- The consistency of one stored row: a non-empty resident and a flag that encodes
`owner != "" && owner == resident`. -/
def RowOk (r : Row) : Prop :=
  r.resident ≠ "" ∧ r.same_flag = boolToInt (r.owner != "" && r.owner == r.resident)

/-- One step of the specification-side load. -/
def saveStep (t : DB) (row : List String) : DB :=
  (saveApartment t SaveFaults.none (aptOfRow row)).1

/-- Every row is consistent and the primary key holds. -/
def StoreInv (db : DB) : Prop := (∀ r ∈ db, RowOk r) ∧ PrimaryKey db

/-! ## Lemmas on the primitives -/

theorem any_id_eq_true (db : DB) (id : String) :
    db.any (fun r => r.id == id) = true ↔ id ∈ db.map Row.id := by
  simp only [List.any_eq_true, beq_iff_eq, List.mem_map]

theorem queryExists_none (db : DB) (id : String) :
    queryExists db none id = if id ∈ db.map Row.id then none else some GoError.ErrNoRows := by
  unfold queryExists
  by_cases h : id ∈ db.map Row.id
  · simp only [(any_id_eq_true db id).2 h, if_true, h]
  · have h2 : db.any (fun r => r.id == id) = false := by
      rw [← Bool.not_eq_true, any_id_eq_true]
      exact h
    simp only [h2, h, if_false, Bool.false_eq_true]

theorem normRow_ok (id owner resident : String) : RowOk (normRow id owner resident) := by
  unfold RowOk normRow
  refine ⟨?_, rfl⟩
  by_cases h : resident = ""
  · simp [h]
  · simp [h]

theorem saveApartment_none (db : DB) (apt : Apartment) :
    saveApartment db SaveFaults.none apt
      = (upsert db (normRow apt.ID apt.Owner apt.Resident), none) := by
  unfold saveApartment
  simp only [SaveFaults.none, queryExists_none]
  by_cases h : apt.ID ∈ db.map Row.id
  · by_cases hr : apt.Resident = "" <;>
      simp [h, hr, upsert, normRow, execUpdate, updateSameFlag]
  · have h2 : db.any (fun r => r.id == apt.ID) = false := by
      rw [← Bool.not_eq_true, any_id_eq_true]
      exact h
    by_cases hr : apt.Resident = "" <;>
      simp [h, hr, upsert, normRow, execInsert, updateSameFlag, h2]

theorem saveApartment_cases (db : DB) (f : SaveFaults) (apt : Apartment) :
    (saveApartment db f apt).1 = db ∨
      (saveApartment db f apt).1 = upsert db (normRow apt.ID apt.Owner apt.Resident) := by
  rcases f with ⟨q, e⟩
  cases q with
  | some m => left; simp [saveApartment, queryExists]
  | none =>
    cases e with
    | none => right; rw [show (SaveFaults.mk none none) = SaveFaults.none from rfl, saveApartment_none]
    | some m =>
      left
      unfold saveApartment
      simp only [queryExists_none]
      by_cases h : apt.ID ∈ db.map Row.id <;> simp [h, execUpdate, execInsert]

theorem importRow_none (tx : DB) (record : List String) :
    importRow tx none none record
      = (upsert tx (normRow (record.getD 0 "") (record.getD 1 "") (record.getD 2 "")), none) := by
  unfold importRow
  simp only [queryExists_none]
  generalize record.getD 0 "" = a
  generalize record.getD 1 "" = b
  generalize record.getD 2 "" = c
  by_cases h : a ∈ tx.map Row.id
  · by_cases hr : c = "" <;>
      simp [h, hr, upsert, normRow, execUpdate, updateSameFlag]
  · have h2 : tx.any (fun r => r.id == a) = false := by
      rw [← Bool.not_eq_true, any_id_eq_true]
      exact h
    by_cases hr : c = "" <;>
      simp [h, hr, upsert, normRow, execInsert, updateSameFlag, h2]

theorem importRow_ok (tx : DB) (q e : Option String) (record : List String)
    (h : (importRow tx q e record).2 = none) :
    (importRow tx q e record).1
      = upsert tx (normRow (record.getD 0 "") (record.getD 1 "") (record.getD 2 "")) := by
  cases q with
  | some m => simp [importRow, queryExists] at h
  | none =>
    cases e with
    | none => rw [importRow_none]
    | some m =>
      exfalso
      unfold importRow at h
      simp only [queryExists_none] at h
      generalize record.getD 0 "" = a at h
      generalize record.getD 1 "" = b at h
      generalize record.getD 2 "" = c at h
      by_cases h1 : a ∈ tx.map Row.id <;> by_cases hr : c = "" <;>
        simp [h1, hr, execUpdate, execInsert, updateSameFlag] at h

/-! ## Lemmas on insert-or-replace -/

theorem upsert_ids (db : DB) (row : Row) :
    (upsert db row).map Row.id
      = if row.id ∈ db.map Row.id then db.map Row.id else db.map Row.id ++ [row.id] := by
  unfold upsert
  by_cases h : row.id ∈ db.map Row.id
  · simp only [h, if_true, List.map_map]
    apply List.map_congr_left
    intro r _
    by_cases hr : r.id = row.id <;> simp [hr]
  · simp [h]

theorem upsert_primaryKey (db : DB) (row : Row) (h : PrimaryKey db) :
    PrimaryKey (upsert db row) := by
  unfold PrimaryKey at *
  rw [upsert_ids]
  by_cases hm : row.id ∈ db.map Row.id
  · simpa [hm] using h
  · simp only [hm, if_false]
    exact List.Nodup.append h (List.nodup_singleton _) (by simpa using hm)

theorem mem_upsert_same (db : DB) (row r : Row) (hr : r ∈ upsert db row) (hid : r.id = row.id) :
    r = row := by
  unfold upsert at hr
  by_cases hm : row.id ∈ db.map Row.id
  · simp only [hm, if_true, List.mem_map] at hr
    obtain ⟨x, _, hx⟩ := hr
    by_cases hxi : x.id = row.id
    · simp only [hxi, beq_self_eq_true, if_true] at hx
      rw [← hx]
    · have hb : (x.id == row.id) = false := by simpa using hxi
      simp only [hb, Bool.false_eq_true, if_false] at hx
      exact absurd (hx ▸ hid) hxi
  · simp only [hm, if_false, List.mem_append, List.mem_singleton] at hr
    rcases hr with hr | hr
    · exact absurd (List.mem_map.2 ⟨r, hr, hid⟩) hm
    · exact hr

theorem mem_upsert_self (db : DB) (row : Row) : row ∈ upsert db row := by
  unfold upsert
  by_cases hm : row.id ∈ db.map Row.id
  · simp only [hm, if_true, List.mem_map]
    obtain ⟨x, hx, hxi⟩ := List.mem_map.1 hm
    exact ⟨x, hx, by simp [hxi]⟩
  · simp [hm]

theorem mem_upsert_other (db : DB) (row r : Row) (hid : r.id ≠ row.id) :
    r ∈ upsert db row ↔ r ∈ db := by
  unfold upsert
  by_cases hm : row.id ∈ db.map Row.id
  · simp only [hm, if_true, List.mem_map]
    constructor
    · rintro ⟨x, hx, hxr⟩
      by_cases hxi : x.id = row.id
      · simp only [hxi, beq_self_eq_true, if_true] at hxr
        exact absurd (by rw [← hxr]) hid
      · have hb : (x.id == row.id) = false := by simpa using hxi
        simp only [hb, Bool.false_eq_true, if_false] at hxr
        exact hxr ▸ hx
    · intro hr
      exact ⟨r, hr, by simp [hid]⟩
  · simp only [hm, if_false, List.mem_append, List.mem_singleton]
    constructor
    · rintro (h | h)
      · exact h
      · exact absurd (by rw [h]) hid
    · exact Or.inl

theorem upsert_length (db : DB) (row : Row) :
    (upsert db row).length = if row.id ∈ db.map Row.id then db.length else db.length + 1 := by
  unfold upsert
  by_cases hm : row.id ∈ db.map Row.id <;> simp [hm]

theorem upsert_rowOk (db : DB) (row : Row) (h : ∀ r ∈ db, RowOk r) (hrow : RowOk row) :
    ∀ r ∈ upsert db row, RowOk r := by
  intro r hr
  by_cases hid : r.id = row.id
  · rw [mem_upsert_same db row r hr hid]
    exact hrow
  · exact h r ((mem_upsert_other db row r hid).1 hr)

theorem filter_id_length_one (db : DB) (id : String) (hpk : PrimaryKey db)
    (hm : id ∈ db.map Row.id) : (db.filter (fun r => r.id == id)).length = 1 := by
  induction db with
  | nil => simp at hm
  | cons x xs ih =>
    unfold PrimaryKey at hpk ih
    simp only [List.map_cons, List.nodup_cons] at hpk
    by_cases hx : x.id = id
    · have hnone : xs.filter (fun r => r.id == id) = [] := by
        rw [List.filter_eq_nil_iff]
        intro r hr hrid
        apply hpk.1
        rw [hx]
        exact List.mem_map.2 ⟨r, hr, by simpa using hrid⟩
      simp [List.filter_cons, hx, hnone]
    · have hm2 : id ∈ xs.map Row.id := by
        simp only [List.map_cons, List.mem_cons] at hm
        rcases hm with hm | hm
        · exact absurd hm.symm hx
        · exact hm
      simp [List.filter_cons, hx, ih hpk.2 hm2]

/-! ## Lemmas on the import loops -/

theorem saveStep_eq (t : DB) (row : List String) :
    saveStep t row = upsert t (normRow (row.getD 0 "") (row.getD 1 "") (row.getD 2 "")) := by
  unfold saveStep
  rw [saveApartment_none]
  rfl

theorem importRow_ok_saveStep (tx : DB) (q e : Option String) (record : List String)
    (h : (importRow tx q e record).2 = none) :
    (importRow tx q e record).1 = saveStep tx record := by
  rw [saveStep_eq]
  exact importRow_ok tx q e record h

theorem specLoad_eq (db : DB) (rows : List (List String)) :
    specLoad db rows = (validRows rows).foldl saveStep db := rfl

theorem excelLoop_ok (f : ImportFaults) (rows : List (List String)) :
    ∀ (i : Nat) (tx tx1 : DB), excelLoop f i tx rows = Except.ok tx1 →
      tx1 = (rows.filter (fun row => decide (3 ≤ row.length))).foldl saveStep tx := by
  induction rows with
  | nil =>
    intro i tx tx1 h
    simp only [excelLoop] at h
    simpa using (Except.ok.inj h).symm
  | cons row rest ih =>
    intro i tx tx1 h
    simp only [excelLoop] at h
    by_cases hlen : row.length < 3
    · simp only [hlen, if_true] at h
      have hd : decide (3 ≤ row.length) = false := by simpa using hlen
      simp only [List.filter_cons, hd, Bool.false_eq_true, if_false]
      exact ih _ _ _ h
    · simp only [hlen, if_false] at h
      have hd : decide (3 ≤ row.length) = true := by simpa using hlen
      simp only [List.filter_cons, hd, if_true, List.foldl_cons]
      cases hrow : (importRow tx (f.queryErr i) (f.execErr i) row).2 with
      | some e => simp [hrow] at h
      | none =>
        simp only [hrow] at h
        rw [← importRow_ok_saveStep tx _ _ row hrow]
        exact ih _ _ _ h

theorem csvLoop_ok (f : ImportFaults) (reader : List (Except String (List String))) :
    ∀ (i : Nat) (tx tx1 : DB), csvLoop f i tx reader = Except.ok tx1 →
      ∃ rows : List (List String), reader = rows.map Except.ok ∧
        tx1 = (rows.filter (fun row => decide (3 ≤ row.length))).foldl saveStep tx := by
  induction reader with
  | nil =>
    intro i tx tx1 h
    simp only [csvLoop] at h
    exact ⟨[], rfl, by simpa using (Except.ok.inj h).symm⟩
  | cons x rest ih =>
    intro i tx tx1 h
    cases x with
    | error msg => simp [csvLoop] at h
    | ok row =>
      simp only [csvLoop] at h
      by_cases hlen : row.length < 3
      · simp only [hlen, if_true] at h
        have hd : decide (3 ≤ row.length) = false := by simpa using hlen
        obtain ⟨rows, hr, ht⟩ := ih _ _ _ h
        refine ⟨row :: rows, by simp [hr], ?_⟩
        simp only [List.filter_cons, hd, Bool.false_eq_true, if_false]
        exact ht
      · simp only [hlen, if_false] at h
        have hd : decide (3 ≤ row.length) = true := by simpa using hlen
        cases hrow : (importRow tx (f.queryErr i) (f.execErr i) row).2 with
        | some e => simp [hrow] at h
        | none =>
          simp only [hrow] at h
          obtain ⟨rows, hr, ht⟩ := ih _ _ _ h
          refine ⟨row :: rows, by simp [hr], ?_⟩
          simp only [List.filter_cons, hd, if_true, List.foldl_cons]
          rw [← importRow_ok_saveStep tx _ _ row hrow]
          exact ht

theorem excelLoop_none (rows : List (List String)) :
    ∀ (i : Nat) (tx : DB), excelLoop ImportFaults.none i tx rows
      = Except.ok ((rows.filter (fun row => decide (3 ≤ row.length))).foldl saveStep tx) := by
  induction rows with
  | nil => intro i tx; rfl
  | cons row rest ih =>
    intro i tx
    simp only [excelLoop]
    by_cases hlen : row.length < 3
    · have hd : decide (3 ≤ row.length) = false := by simpa using hlen
      simp only [hlen, if_true, List.filter_cons, hd, Bool.false_eq_true, if_false]
      exact ih _ _
    · have hd : decide (3 ≤ row.length) = true := by simpa using hlen
      simp only [hlen, if_false, List.filter_cons, hd, if_true, List.foldl_cons]
      have hrow : importRow tx (ImportFaults.none.queryErr i) (ImportFaults.none.execErr i) row
          = (saveStep tx row, none) := by
        rw [saveStep_eq]
        exact importRow_none tx row
      simp only [hrow]
      exact ih _ _

theorem csvLoop_none (rows : List (List String)) :
    ∀ (i : Nat) (tx : DB), csvLoop ImportFaults.none i tx (rows.map Except.ok)
      = Except.ok ((rows.filter (fun row => decide (3 ≤ row.length))).foldl saveStep tx) := by
  induction rows with
  | nil => intro i tx; rfl
  | cons row rest ih =>
    intro i tx
    rw [List.map_cons]
    simp only [csvLoop]
    by_cases hlen : row.length < 3
    · have hd : decide (3 ≤ row.length) = false := by simpa using hlen
      simp only [hlen, if_true, List.filter_cons, hd, Bool.false_eq_true, if_false]
      exact ih _ _
    · have hd : decide (3 ≤ row.length) = true := by simpa using hlen
      simp only [hlen, if_false, List.filter_cons, hd, if_true, List.foldl_cons]
      have hrow : importRow tx (ImportFaults.none.queryErr i) (ImportFaults.none.execErr i) row
          = (saveStep tx row, none) := by
        rw [saveStep_eq]
        exact importRow_none tx row
      simp only [hrow]
      exact ih _ _

theorem importFromCSV_cases (db : DB) (f : ImportFaults)
    (reader : List (Except String (List String))) :
    ((importFromCSV db f reader).1 = db ∧ (importFromCSV db f reader).2 ≠ none) ∨
    (∃ (hd : List String) (rest : List (Except String (List String))) (tx : DB),
      reader = Except.ok hd :: rest ∧ csvLoop f 1 db rest = Except.ok tx ∧
      importFromCSV db f reader = (tx, none)) := by
  obtain ⟨fo, fg, fb, fq, fe, fc⟩ := f
  unfold importFromCSV
  simp only
  cases fo with
  | some m => left; simp
  | none =>
    cases reader with
    | nil => left; simp
    | cons x rest =>
      cases x with
      | error m => left; simp
      | ok hd =>
        cases fb with
        | some m => left; simp
        | none =>
          cases hl : csvLoop ⟨none, fg, none, fq, fe, fc⟩ 1 db rest with
          | error e => left; simp [hl]
          | ok tx =>
            cases fc with
            | some m => left; simp [hl]
            | none => right; exact ⟨hd, rest, tx, rfl, hl, by simp [hl]⟩

theorem importFromExcel_cases (db : DB) (f : ImportFaults) (rows : List (List String)) :
    ((importFromExcel db f rows).1 = db ∧ (importFromExcel db f rows).2 ≠ none) ∨
    (2 ≤ rows.length ∧ ∃ tx : DB, excelLoop f 1 db (rows.drop 1) = Except.ok tx ∧
      importFromExcel db f rows = (tx, none)) := by
  obtain ⟨fo, fg, fb, fq, fe, fc⟩ := f
  unfold importFromExcel
  simp only
  cases fo with
  | some m => left; simp
  | none =>
    cases fg with
    | some m => left; simp
    | none =>
      by_cases hlen : rows.length < 2
      · left; simp [hlen]
      · simp only [hlen, if_false]
        cases fb with
        | some m => left; simp
        | none =>
          cases hl : excelLoop ⟨none, none, none, fq, fe, fc⟩ 1 db (rows.drop 1) with
          | error e => left; simp [hl]
          | ok tx =>
            cases fc with
            | some m => left; simp [hl]
            | none => right; exact ⟨by omega, tx, rfl, by simp⟩

/-! ## Lemmas on the specification-side load -/

theorem saveStep_rowOk (t : DB) (row : List String) (h : ∀ r ∈ t, RowOk r) :
    ∀ r ∈ saveStep t row, RowOk r := by
  rw [saveStep_eq]
  exact upsert_rowOk t _ h (normRow_ok _ _ _)

theorem saveStep_primaryKey (t : DB) (row : List String) (h : PrimaryKey t) :
    PrimaryKey (saveStep t row) := by
  rw [saveStep_eq]
  exact upsert_primaryKey t _ h

theorem foldl_saveStep_inv (rows : List (List String)) :
    ∀ t : DB, (∀ r ∈ t, RowOk r) → PrimaryKey t →
      (∀ r ∈ rows.foldl saveStep t, RowOk r) ∧ PrimaryKey (rows.foldl saveStep t) := by
  induction rows with
  | nil => intro t h1 h2; exact ⟨h1, h2⟩
  | cons row rest ih =>
    intro t h1 h2
    exact ih _ (saveStep_rowOk t row h1) (saveStep_primaryKey t row h2)

theorem mem_ids_saveStep (t : DB) (row : List String) (id : String) :
    id ∈ (saveStep t row).map Row.id ↔ id ∈ t.map Row.id ∨ id = row.getD 0 "" := by
  rw [saveStep_eq, upsert_ids]
  have hid : (normRow (row.getD 0 "") (row.getD 1 "") (row.getD 2 "")).id = row.getD 0 "" := rfl
  rw [hid]
  by_cases hm : row.getD 0 "" ∈ t.map Row.id
  · rw [if_pos hm]
    constructor
    · exact Or.inl
    · rintro (h | h)
      · exact h
      · rw [h]; exact hm
  · rw [if_neg hm]
    simp only [List.mem_append, List.mem_singleton]

theorem mem_ids_foldl_saveStep (rows : List (List String)) :
    ∀ (t : DB) (id : String), id ∈ (rows.foldl saveStep t).map Row.id ↔
      id ∈ t.map Row.id ∨ id ∈ rows.map (fun row => row.getD 0 "") := by
  induction rows with
  | nil => intro t id; simp
  | cons row rest ih =>
    intro t id
    rw [List.foldl_cons, ih, mem_ids_saveStep]
    simp only [List.map_cons, List.mem_cons]
    tauto

theorem foldl_saveStep_keeps (post : List (List String)) (id : String) (R : Row)
    (hR : R.id = id) (hpost : ∀ q ∈ post, q.getD 0 "" ≠ id) :
    ∀ t : DB, (R ∈ t ∧ ∀ r ∈ t, r.id = id → r = R) →
      (R ∈ post.foldl saveStep t ∧ ∀ r ∈ post.foldl saveStep t, r.id = id → r = R) := by
  induction post with
  | nil => intro t h0; exact h0
  | cons q rest ih =>
    intro t0 h0
    have hq : q.getD 0 "" ≠ id := hpost q (List.mem_cons_self _ _)
    apply ih (fun x hx => hpost x (List.mem_cons_of_mem _ hx))
    rw [saveStep_eq]
    have hne : ∀ r : Row, r.id = id →
        r.id ≠ (normRow (q.getD 0 "") (q.getD 1 "") (q.getD 2 "")).id := by
      intro r hrid h
      apply hq
      rw [← hrid, h]
      rfl
    constructor
    · exact (mem_upsert_other t0 _ R (hne R hR)).2 h0.1
    · intro r hr hrid
      exact h0.2 r ((mem_upsert_other t0 _ r (hne r hrid)).1 hr) hrid

theorem specLoad_last_wins (db : DB) (rows pre post : List (List String)) (row : List String)
    (hsplit : validRows rows = pre ++ row :: post)
    (hpost : ∀ q ∈ post, q.getD 0 "" ≠ row.getD 0 "") :
    normRow (row.getD 0 "") (row.getD 1 "") (row.getD 2 "") ∈ specLoad db rows ∧
    ∀ r ∈ specLoad db rows, r.id = row.getD 0 "" →
      r = normRow (row.getD 0 "") (row.getD 1 "") (row.getD 2 "") := by
  rw [specLoad_eq, hsplit, List.foldl_append, List.foldl_cons]
  apply foldl_saveStep_keeps post (row.getD 0 "") _ rfl hpost
  rw [saveStep_eq]
  exact ⟨mem_upsert_self _ _, fun r hr hrid => mem_upsert_same _ _ r hr hrid⟩

theorem specLoad_count (rows : List (List String)) :
    (specLoad [] rows).length
      = ((validRows rows).map (fun row => row.getD 0 "")).dedup.length := by
  have hinv := foldl_saveStep_inv (validRows rows) [] (by simp) (by simp [PrimaryKey])
  have hnd : ((specLoad [] rows).map Row.id).Nodup := hinv.2
  have hperm : List.Perm ((specLoad [] rows).map Row.id)
      ((validRows rows).map (fun row => row.getD 0 "")).dedup := by
    rw [List.perm_ext_iff_of_nodup hnd (List.nodup_dedup _)]
    intro id
    rw [specLoad_eq, mem_ids_foldl_saveStep, List.mem_dedup]
    simp
  have := hperm.length_eq
  simpa using this

/-! ## The stored-record invariant -/

theorem storeInv_nil : StoreInv [] := ⟨by simp, by simp [PrimaryKey]⟩

theorem storeInv_filter (db : DB) (p : Row → Bool) (h : StoreInv db) : StoreInv (db.filter p) := by
  constructor
  · intro r hr
    exact h.1 r (List.mem_filter.1 hr).1
  · unfold PrimaryKey
    exact List.Nodup.sublist (List.Sublist.map _ (List.filter_sublist db)) h.2

theorem storeInv_foldl (rows : List (List String)) (t : DB) (h : StoreInv t) :
    StoreInv (rows.foldl saveStep t) :=
  foldl_saveStep_inv rows t h.1 h.2

theorem reachable_storeInv (db : DB) (h : Reachable db) : StoreInv db := by
  induction h with
  | init => exact storeInv_nil
  | save db f apt _ ih =>
    rcases saveApartment_cases db f apt with hc | hc
    · rw [hc]; exact ih
    · rw [hc]
      exact ⟨upsert_rowOk db _ ih.1 (normRow_ok _ _ _), upsert_primaryKey db _ ih.2⟩
  | delete db fault id _ ih =>
    cases fault with
    | some m => exact ih
    | none => exact storeInv_filter db _ ih
  | importCSV db f reader _ ih =>
    rcases importFromCSV_cases db f reader with hc | ⟨hd, rest, tx, _, hl, hres⟩
    · rw [hc.1]; exact ih
    · obtain ⟨rows, _, htx⟩ := csvLoop_ok f rest 1 db tx hl
      rw [hres, htx]
      exact storeInv_foldl _ db ih
  | importExcel db f rows _ ih =>
    rcases importFromExcel_cases db f rows with hc | ⟨_, tx, hl, hres⟩
    · rw [hc.1]; exact ih
    · rw [hres, excelLoop_ok f _ 1 db tx hl]
      exact storeInv_foldl _ db ih

/-! ## Lemmas on the id order -/

theorem lexLe_total : ∀ a b : List Nat, lexLe a b = true ∨ lexLe b a = true
  | [], _ => Or.inl rfl
  | _ :: _, [] => Or.inr rfl
  | a :: as, b :: bs => by
    simp only [lexLe, Bool.or_eq_true, Bool.and_eq_true, decide_eq_true_eq, beq_iff_eq]
    rcases Nat.lt_trichotomy a b with h | h | h
    · exact Or.inl (Or.inl h)
    · rcases lexLe_total as bs with h2 | h2
      · exact Or.inl (Or.inr ⟨h, h2⟩)
      · exact Or.inr (Or.inr ⟨h.symm, h2⟩)
    · exact Or.inr (Or.inl h)

theorem lexLe_trans : ∀ a b c : List Nat, lexLe a b = true → lexLe b c = true → lexLe a c = true
  | [], _, _ => fun _ _ => rfl
  | _ :: _, [], _ => fun h _ => by simp [lexLe] at h
  | _ :: _, _ :: _, [] => fun _ h => by simp [lexLe] at h
  | a :: as, b :: bs, c :: cs => by
    simp only [lexLe, Bool.or_eq_true, Bool.and_eq_true, decide_eq_true_eq, beq_iff_eq]
    rintro (h1 | ⟨h1, h1r⟩) (h2 | ⟨h2, h2r⟩)
    · exact Or.inl (by omega)
    · exact Or.inl (by omega)
    · exact Or.inl (by omega)
    · exact Or.inr ⟨by omega, lexLe_trans as bs cs h1r h2r⟩

theorem lexLe_antisymm : ∀ a b : List Nat, lexLe a b = true → lexLe b a = true → a = b
  | [], [] => fun _ _ => rfl
  | [], _ :: _ => fun _ h => by simp [lexLe] at h
  | _ :: _, [] => fun h _ => by simp [lexLe] at h
  | a :: as, b :: bs => by
    simp only [lexLe, Bool.or_eq_true, Bool.and_eq_true, decide_eq_true_eq, beq_iff_eq]
    rintro (h1 | ⟨h1, h1r⟩) (h2 | ⟨h2, h2r⟩)
    · omega
    · omega
    · omega
    · rw [h1, lexLe_antisymm as bs h1r h2r]

theorem codes_injective (a b : String) (h : codes a = codes b) : a = b := by
  unfold codes at h
  have hinj : Function.Injective Char.toNat := by
    intro x y hxy
    apply Char.ext
    apply UInt32.ext
    exact hxy
  have := List.map_injective_iff.2 hinj h
  exact String.ext this

theorem char_toNat_injective (a b : Char) (h : a.toNat = b.toNat) : a = b := by
  apply Char.ext
  apply UInt32.ext
  exact h

theorem lexLe_iff_not_lt : ∀ a b : List Char,
    lexLe (a.map Char.toNat) (b.map Char.toNat) = true ↔ ¬ b < a
  | [], b => by
    simp only [List.map_nil, lexLe, true_iff]
    intro h
    cases h
  | a :: as, [] => by
    simp only [List.map_cons, List.map_nil, lexLe, Bool.false_eq_true, false_iff, not_not]
    exact List.Lex.nil
  | a :: as, b :: bs => by
    have ih := lexLe_iff_not_lt as bs
    have hlt : ∀ x y : Char, x < y ↔ x.toNat < y.toNat := fun _ _ => Iff.rfl
    simp only [List.map_cons, lexLe, Bool.or_eq_true, Bool.and_eq_true, decide_eq_true_eq,
      beq_iff_eq]
    constructor
    · rintro (h | ⟨h, hr⟩) hba
      · cases hba with
        | cons h2 => exact absurd h (lt_irrefl _)
        | rel h2 => exact absurd ((hlt b a).1 h2) (by omega)
      · cases hba with
        | cons h2 => exact (ih.1 hr) h2
        | rel h2 => exact absurd ((hlt b a).1 h2) (by omega)
    · intro hn
      rcases Nat.lt_trichotomy a.toNat b.toNat with h | h | h
      · exact Or.inl h
      · refine Or.inr ⟨h, ih.2 ?_⟩
        intro h4
        apply hn
        have hab := char_toNat_injective a b h
        subst hab
        exact List.Lex.cons h4
      · exact absurd (List.Lex.rel ((hlt b a).2 h)) hn

/-- The order of `ORDER BY id` is the order of `String`. -/
theorem idLe_iff_le (a b : String) : idLe a b = true ↔ a ≤ b := by
  rw [String.le_iff_toList_le, ← not_lt]
  exact lexLe_iff_not_lt a.data b.data

theorem idLe_total (a b : String) : idLe a b = true ∨ idLe b a = true :=
  lexLe_total _ _

theorem idLe_trans (a b c : String) (h1 : idLe a b = true) (h2 : idLe b c = true) :
    idLe a c = true :=
  lexLe_trans _ _ _ h1 h2

theorem idLe_antisymm (a b : String) (h1 : idLe a b = true) (h2 : idLe b a = true) : a = b :=
  codes_injective a b (lexLe_antisymm _ _ h1 h2)

theorem orderById_perm (db : DB) : (orderById db).Perm db :=
  List.perm_insertionSort _ db

theorem orderById_length (db : DB) : (orderById db).length = db.length :=
  (orderById_perm db).length_eq

theorem orderById_sorted (db : DB) :
    (orderById db).Pairwise (fun a b => idLe a.id b.id = true) := by
  haveI : IsTotal Row (fun a b => idLe a.id b.id = true) :=
    ⟨fun a b => idLe_total a.id b.id⟩
  haveI : IsTrans Row (fun a b => idLe a.id b.id = true) :=
    ⟨fun a b c => idLe_trans a.id b.id c.id⟩
  exact List.sorted_insertionSort _ db

theorem orderById_primaryKey (db : DB) (h : PrimaryKey db) : PrimaryKey (orderById db) := by
  unfold PrimaryKey at *
  exact ((orderById_perm db).map Row.id).nodup_iff.2 h

theorem orderById_strict (db : DB) (h : PrimaryKey db) :
    (orderById db).Pairwise (fun a b => a.id < b.id) := by
  have h1 := orderById_sorted db
  have h2 : (orderById db).Pairwise (fun a b => a.id ≠ b.id) :=
    List.pairwise_map.1 (orderById_primaryKey db h)
  refine (List.Pairwise.and h1 h2).imp ?_
  intro a b hab
  exact lt_of_le_of_ne ((idLe_iff_le a.id b.id).1 hab.1) hab.2

theorem orderById_storeInv (db : DB) (h : StoreInv db) : StoreInv (orderById db) :=
  ⟨fun r hr => h.1 r ((orderById_perm db).mem_iff.1 hr), orderById_primaryKey db h.2⟩

/-! ## Lemmas on export followed by import -/

theorem exportLoop_none (f : ExportFaults) (hs : ∀ i, f.scanErr i = none)
    (hw : ∀ i, f.writeErr i = none) (rows : List Row) :
    ∀ (i : Nat) (out : List (List String)),
      exportLoop f i out rows = (out ++ rows.map exportRow, none) := by
  induction rows with
  | nil => intro i out; simp [exportLoop]
  | cons r rest ih =>
    intro i out
    simp only [exportLoop, hs, hw]
    rw [ih]
    simp

theorem exportToCSV_none (db : DB) :
    exportToCSV db ExportFaults.none
      = (some (exportHeader :: (orderById db).map exportRow), none) := by
  unfold exportToCSV
  simp only [ExportFaults.none]
  rw [exportLoop_none _ (fun _ => rfl) (fun _ => rfl)]
  rfl

theorem exportToExcel_none (db : DB) :
    exportToExcel db ExportFaults.none
      = (some (exportHeader :: (orderById db).map exportRow), none) := by
  unfold exportToExcel
  simp only [ExportFaults.none]
  rw [exportLoop_none _ (fun _ => rfl) (fun _ => rfl)]
  rfl

theorem normRow_of_rowOk (r : Row) (h : RowOk r) : normRow r.id r.owner r.resident = r := by
  obtain ⟨h1, h2⟩ := h
  unfold normRow
  simp only [h1, if_false]
  rw [← h2]

theorem saveStep_exportRow (t : DB) (r : Row) (hok : RowOk r) (hid : r.id ∉ t.map Row.id) :
    saveStep t (exportRow r) = t ++ [r] := by
  rw [saveStep_eq]
  have h0 : (exportRow r).getD 0 "" = r.id := rfl
  have h1 : (exportRow r).getD 1 "" = r.owner := rfl
  have h2 : (exportRow r).getD 2 "" = r.resident := rfl
  rw [h0, h1, h2, normRow_of_rowOk r hok]
  unfold upsert
  rw [if_neg hid]

theorem foldl_saveStep_exportRows (l : List Row) :
    ∀ t : DB, (∀ r ∈ l, RowOk r) → PrimaryKey (t ++ l) →
      (l.map exportRow).foldl saveStep t = t ++ l := by
  induction l with
  | nil => intro t _ _; simp
  | cons r rest ih =>
    intro t hok hpk
    have hpk2 : PrimaryKey ((t ++ [r]) ++ rest) := by simpa using hpk
    have hid : r.id ∉ t.map Row.id := by
      unfold PrimaryKey at hpk
      rw [List.map_append, List.nodup_append] at hpk
      intro hmem
      exact hpk.2.2 hmem (by simp)
    rw [List.map_cons, List.foldl_cons, saveStep_exportRow t r (hok r (List.mem_cons_self _ _)) hid,
      ih (t ++ [r]) (fun x hx => hok x (List.mem_cons_of_mem _ hx)) hpk2]
    simp

theorem filter_valid_exportRows (l : List Row) :
    (l.map exportRow).filter (fun row => decide (3 ≤ row.length)) = l.map exportRow := by
  rw [List.filter_eq_self]
  intro row hrow
  obtain ⟨r, _, rfl⟩ := List.mem_map.1 hrow
  rfl

theorem importFromCSV_exported (l : List Row) (hok : ∀ r ∈ l, RowOk r) (hpk : PrimaryKey l) :
    importFromCSV [] ImportFaults.none ((exportHeader :: l.map exportRow).map Except.ok)
      = (l, none) := by
  have hloop := csvLoop_none (l.map exportRow) 1 []
  rw [filter_valid_exportRows, foldl_saveStep_exportRows l [] hok (by simpa using hpk)] at hloop
  rw [List.map_cons]
  unfold importFromCSV
  simp only [ImportFaults.none] at hloop ⊢
  rw [hloop]
  rfl

theorem importFromExcel_exported (l : List Row) (hok : ∀ r ∈ l, RowOk r) (hpk : PrimaryKey l)
    (hne : l ≠ []) :
    importFromExcel [] ImportFaults.none (exportHeader :: l.map exportRow) = (l, none) := by
  have hloop := excelLoop_none (l.map exportRow) 1 []
  rw [filter_valid_exportRows, foldl_saveStep_exportRows l [] hok (by simpa using hpk)] at hloop
  have hlen : ¬ (exportHeader :: l.map exportRow).length < 2 := by
    cases l with
    | nil => exact absurd rfl hne
    | cons x xs => simp
  unfold importFromExcel
  simp only [ImportFaults.none, hlen, if_false, List.drop_one, List.tail_cons] at hloop ⊢
  rw [hloop]
  rfl

/-! ## Lemmas on the CSV codec -/

theorem crlfToLfChars_of_not : ∀ l : List Char, hasCRLFChars l = false → crlfToLfChars l = l
  | [] => fun _ => rfl
  | c :: rest => by
    intro h
    simp only [hasCRLFChars, Bool.or_eq_false_iff] at h
    have ih := crlfToLfChars_of_not rest h.2
    have hne : ¬ (c = '\r' ∧ rest.head? = some '\n') := by
      rintro ⟨h1, h2⟩
      have h3 := h.1
      simp [h1, h2] at h3
    simp only [crlfToLfChars, hne, if_false, ih]

theorem crlfToLf_of_not (s : String) (h : hasCRLF s = false) : crlfToLf s = s := by
  unfold crlfToLf
  rw [crlfToLfChars_of_not s.data h]

theorem crlfToLf_sameStatus (n : Int) : crlfToLf (sameStatus n) = sameStatus n := by
  unfold sameStatus
  by_cases h : n = 1
  · rw [if_pos h]; decide
  · rw [if_neg h]; decide

theorem map_crlfToLf_exportRow (r : Row)
    (h : hasCRLF r.id = false ∧ hasCRLF r.owner = false ∧ hasCRLF r.resident = false) :
    (exportRow r).map crlfToLf = exportRow r := by
  simp only [exportRow, List.map_cons, List.map_nil, crlfToLf_of_not _ h.1,
    crlfToLf_of_not _ h.2.1, crlfToLf_of_not _ h.2.2, crlfToLf_sameStatus]

theorem csvReader_exported (l : List Row)
    (h : ∀ r ∈ l, hasCRLF r.id = false ∧ hasCRLF r.owner = false ∧ hasCRLF r.resident = false) :
    csvReader (exportHeader :: l.map exportRow)
      = (exportHeader :: l.map exportRow).map Except.ok := by
  have hfilter : (exportHeader :: l.map exportRow).filter (fun record => !csvBlank record)
      = exportHeader :: l.map exportRow := by
    rw [List.filter_eq_self]
    intro record hrec
    rcases List.mem_cons.1 hrec with hh | hm
    · rw [hh]; decide
    · obtain ⟨r, _, rfl⟩ := List.mem_map.1 hm
      simp [csvBlank, exportRow]
  have hhead : exportHeader.map crlfToLf = exportHeader := by decide
  unfold csvReader
  rw [hfilter]
  simp only [hhead, List.map_cons, List.map_map]
  congr 1
  apply List.map_congr_left
  intro r hr
  have hlen : (exportRow r).length = exportHeader.length := rfl
  simp only [Function.comp, hlen, if_true, map_crlfToLf_exportRow r (h r hr)]

/-! ## Derived flag -/

/-- C1: `updateSameFlag` sets `SameFlag` to true exactly when the owner is non-empty and
equals the resident, keeps `ID`, `Owner` and `Resident`, and does not depend on the
previous `SameFlag`; ("Alice","Alice") gives true, ("","") and ("Alice","Bob") give false. -/
theorem updateSameFlag_iff (apt : Apartment) :
    ((updateSameFlag apt).SameFlag = true ↔ apt.Owner ≠ "" ∧ apt.Owner = apt.Resident) ∧
    (updateSameFlag apt).ID = apt.ID ∧
    (updateSameFlag apt).Owner = apt.Owner ∧
    (updateSameFlag apt).Resident = apt.Resident ∧
    (∀ b : Bool, updateSameFlag ⟨apt.ID, apt.Owner, apt.Resident, b⟩ = updateSameFlag apt) ∧
    (∀ (id : String) (b : Bool), (updateSameFlag ⟨id, "Alice", "Alice", b⟩).SameFlag = true) ∧
    (∀ (id : String) (b : Bool), (updateSameFlag ⟨id, "", "", b⟩).SameFlag = false) ∧
    (∀ (id : String) (b : Bool), (updateSameFlag ⟨id, "Alice", "Bob", b⟩).SameFlag = false) := by
  refine ⟨?_, rfl, rfl, rfl, fun _ => rfl, ?_, ?_, ?_⟩
  · simp [updateSameFlag]
  · intro id b
    simp [updateSameFlag]
  · intro id b
    simp [updateSameFlag]
  · intro id b
    simp only [updateSameFlag]
    decide

/-! ## Record store -/

/-- C2: without storage failure, `saveApartment` of a record with a non-empty id returns
no error; every stored row under that id then carries the supplied owner, the resident
normalised to "Vacant" when empty, and the recomputed flag, whatever `SameFlag` was
supplied; exactly one row has that id; the row is appended when the id was absent and
replaces the old one when it was present; rows with another id are untouched.  (The
function does the same for an empty id: the proof makes no use of `hid`.) -/
theorem saveApartment_upsert (db : DB) (r : Apartment) (hpk : PrimaryKey db)
    (hid : r.ID ≠ "") :
    (saveApartment db SaveFaults.none r).2 = none ∧
    (∀ row ∈ (saveApartment db SaveFaults.none r).1, row.id = r.ID →
      row.owner = r.Owner ∧
      row.resident = (if r.Resident = "" then "Vacant" else r.Resident) ∧
      row.same_flag = boolToInt
        (r.Owner != "" && r.Owner == (if r.Resident = "" then "Vacant" else r.Resident))) ∧
    ((saveApartment db SaveFaults.none r).1.filter (fun row => row.id == r.ID)).length = 1 ∧
    (r.ID ∉ db.map Row.id →
      (saveApartment db SaveFaults.none r).1 = db ++ [⟨r.ID, r.Owner,
        if r.Resident = "" then "Vacant" else r.Resident,
        boolToInt (r.Owner != "" && r.Owner == (if r.Resident = "" then "Vacant" else r.Resident))⟩]) ∧
    (r.ID ∈ db.map Row.id →
      (saveApartment db SaveFaults.none r).1.length = db.length ∧
      (saveApartment db SaveFaults.none r).1.map Row.id = db.map Row.id) ∧
    (∀ row : Row, row.id ≠ r.ID →
      (row ∈ (saveApartment db SaveFaults.none r).1 ↔ row ∈ db)) ∧
    PrimaryKey (saveApartment db SaveFaults.none r).1 := by
  have _ := hid
  rw [saveApartment_none]
  refine ⟨rfl, ?_, ?_, ?_, ?_, ?_, ?_⟩
  · intro row hrow hrid
    have := mem_upsert_same db _ row hrow hrid
    subst this
    exact ⟨rfl, rfl, rfl⟩
  · apply filter_id_length_one _ _ (upsert_primaryKey db _ hpk)
    exact List.mem_map.2 ⟨_, mem_upsert_self db _, rfl⟩
  · intro habs
    have habs2 : (normRow r.ID r.Owner r.Resident).id ∉ db.map Row.id := habs
    simp only [upsert, habs2, if_false]
    rfl
  · intro hpres
    have hpres2 : (normRow r.ID r.Owner r.Resident).id ∈ db.map Row.id := hpres
    constructor
    · rw [upsert_length, if_pos hpres2]
    · rw [upsert_ids, if_pos hpres2]
  · intro row hne
    exact mem_upsert_other db _ row hne
  · exact upsert_primaryKey db _ hpk

/-- Witness for C2: saving over a stored id with an empty resident and a supplied flag
of true. -/
theorem saveApartment_upsert_witness :
    PrimaryKey [⟨"A1", "Zed", "Zed", 1⟩, ⟨"B2", "Bob", "Vacant", 0⟩] ∧
    (⟨"A1", "Alice", "", true⟩ : Apartment).ID ≠ "" ∧
    (saveApartment [⟨"A1", "Zed", "Zed", 1⟩, ⟨"B2", "Bob", "Vacant", 0⟩] SaveFaults.none
        ⟨"A1", "Alice", "", true⟩).2 = none ∧
    ((saveApartment [⟨"A1", "Zed", "Zed", 1⟩, ⟨"B2", "Bob", "Vacant", 0⟩] SaveFaults.none
        ⟨"A1", "Alice", "", true⟩).1.filter (fun row => row.id == "A1")).length = 1 ∧
    (saveApartment [⟨"A1", "Zed", "Zed", 1⟩, ⟨"B2", "Bob", "Vacant", 0⟩] SaveFaults.none
        ⟨"A1", "Alice", "", true⟩).1
      = [⟨"A1", "Alice", "Vacant", 0⟩, ⟨"B2", "Bob", "Vacant", 0⟩] :=
  ⟨by decide, by decide,
    (saveApartment_upsert [⟨"A1", "Zed", "Zed", 1⟩, ⟨"B2", "Bob", "Vacant", 0⟩]
      ⟨"A1", "Alice", "", true⟩ (by decide) (by decide)).1,
    (saveApartment_upsert [⟨"A1", "Zed", "Zed", 1⟩, ⟨"B2", "Bob", "Vacant", 0⟩]
      ⟨"A1", "Alice", "", true⟩ (by decide) (by decide)).2.2.1,
    by decide⟩

/-- C3 (as stated, refuted): `saveApartment` called with an empty id on the empty store
returns no error and inserts a row whose id is empty. -/
theorem saveApartment_empty_id_inserts :
    saveApartment [] SaveFaults.none ⟨"", "Alice", "Bob", false⟩
      = ([⟨"", "Alice", "Bob", 0⟩], none) := by
  decide

/-- C3 (amended): the Save handler, the only caller of `saveApartment`, rejects an empty
id entry with the error "apartment ID cannot be empty" before any statement runs and
leaves the store as it was; with a non-empty id entry it is `saveApartment` applied to
the record built from the three entries. -/
theorem saveBtnTapped_validates_id (db : DB) (f : SaveFaults) (cur : Apartment)
    (idText ownerText residentText : String) :
    saveBtnTapped db f cur "" ownerText residentText
      = (db, some (GoError.failure "apartment ID cannot be empty")) ∧
    (idText ≠ "" → saveBtnTapped db f cur idText ownerText residentText
      = saveApartment db f ⟨idText, ownerText,
          if residentText = "" then "Vacant" else residentText, cur.SameFlag⟩) := by
  constructor
  · simp [saveBtnTapped]
  · intro h
    simp [saveBtnTapped, h]

/-- Witness for C3 (amended): a non-empty id entry reaches `saveApartment`. -/
theorem saveBtnTapped_validates_id_witness :
    ("A1" : String) ≠ "" ∧
    saveBtnTapped [] SaveFaults.none Apartment.zero "A1" "Alice" ""
      = saveApartment [] SaveFaults.none ⟨"A1", "Alice", "Vacant", false⟩ :=
  ⟨by decide,
    (saveBtnTapped_validates_id [] SaveFaults.none Apartment.zero "A1" "Alice" "").2 (by decide)⟩

/-- C10: without storage failure `deleteApartment` returns no error; when the id is
stored it is gone afterwards, the count drops by exactly one and every row with another
id is kept; when the id is not stored the table and the count are unchanged. -/
theorem deleteApartment_frame (db : DB) (id : String) (hpk : PrimaryKey db) :
    (deleteApartment db none id).2 = none ∧
    (id ∈ db.map Row.id →
      id ∉ (deleteApartment db none id).1.map Row.id ∧
      getApartmentCount (deleteApartment db none id).1 none = getApartmentCount db none - 1 ∧
      (∀ row : Row, row.id ≠ id → (row ∈ (deleteApartment db none id).1 ↔ row ∈ db))) ∧
    (id ∉ db.map Row.id →
      (deleteApartment db none id).1 = db ∧
      getApartmentCount (deleteApartment db none id).1 none = getApartmentCount db none) := by
  have hdel : (deleteApartment db none id).1 = db.filter (fun r => r.id != id) := rfl
  refine ⟨rfl, ?_, ?_⟩
  · intro hm
    rw [hdel]
    refine ⟨?_, ?_, ?_⟩
    · simp [List.mem_filter]
    · have h1 := filter_id_length_one db id hpk hm
      have h2 : (db.filter (fun r => r.id != id)).length
          + (db.filter (fun r => r.id == id)).length = db.length := by
        have h3 := List.length_eq_length_filter_add (l := db) (fun r => r.id == id)
        have h4 : (fun r : Row => !(r.id == id)) = (fun r : Row => r.id != id) := rfl
        rw [h4] at h3
        omega
      simp only [getApartmentCount]
      omega
    · intro row hne
      simp [List.mem_filter, hne]
  · intro hm
    have hfil : db.filter (fun r => r.id != id) = db := by
      rw [List.filter_eq_self]
      intro r hr
      have : r.id ≠ id := fun h => hm (List.mem_map.2 ⟨r, hr, h⟩)
      simpa using this
    rw [hdel, hfil]
    exact ⟨rfl, rfl⟩

/-- Witness for C10: deleting a stored id from a two-row store, and an id that is not
stored. -/
theorem deleteApartment_frame_witness :
    PrimaryKey [⟨"A1", "Alice", "Alice", 1⟩, ⟨"B2", "Bob", "Vacant", 0⟩] ∧
    "A1" ∈ ([⟨"A1", "Alice", "Alice", 1⟩, ⟨"B2", "Bob", "Vacant", 0⟩] : DB).map Row.id ∧
    getApartmentCount
        (deleteApartment [⟨"A1", "Alice", "Alice", 1⟩, ⟨"B2", "Bob", "Vacant", 0⟩] none "A1").1 none
      = getApartmentCount [⟨"A1", "Alice", "Alice", 1⟩, ⟨"B2", "Bob", "Vacant", 0⟩] none - 1 ∧
    "C3" ∉ ([⟨"A1", "Alice", "Alice", 1⟩, ⟨"B2", "Bob", "Vacant", 0⟩] : DB).map Row.id ∧
    (deleteApartment [⟨"A1", "Alice", "Alice", 1⟩, ⟨"B2", "Bob", "Vacant", 0⟩] none "C3").1
      = [⟨"A1", "Alice", "Alice", 1⟩, ⟨"B2", "Bob", "Vacant", 0⟩] :=
  ⟨by decide, by decide,
    ((deleteApartment_frame [⟨"A1", "Alice", "Alice", 1⟩, ⟨"B2", "Bob", "Vacant", 0⟩] "A1"
      (by decide)).2.1 (by decide)).2.1,
    by decide,
    ((deleteApartment_frame [⟨"A1", "Alice", "Alice", 1⟩, ⟨"B2", "Bob", "Vacant", 0⟩] "C3"
      (by decide)).2.2 (by decide)).1⟩

/-! ## Bulk import -/

/-- C5: when `importFromCSV` or `importFromExcel` returns an error, whatever operation
failed and however many rows were processed before it, the store after the call is the
store before the call. -/
theorem import_atomic (db : DB) (f : ImportFaults)
    (reader : List (Except String (List String))) (rows : List (List String)) :
    ((importFromCSV db f reader).2 ≠ none → (importFromCSV db f reader).1 = db) ∧
    ((importFromExcel db f rows).2 ≠ none → (importFromExcel db f rows).1 = db) := by
  constructor
  · intro herr
    rcases importFromCSV_cases db f reader with hc | ⟨_, _, tx, _, _, hres⟩
    · exact hc.1
    · rw [hres] at herr
      exact absurd rfl herr
  · intro herr
    rcases importFromExcel_cases db f rows with hc | ⟨_, tx, _, hres⟩
    · exact hc.1
    · rw [hres] at herr
      exact absurd rfl herr

/-- Witness for C5: the insert of file row 2 fails after row 1 was inserted in the
transaction; both imports return the error and leave the one stored row. -/
theorem import_atomic_witness :
    (importFromCSV [⟨"A0", "Zed", "Vacant", 0⟩]
        ⟨none, none, none, fun _ => none, fun i => if i = 2 then some "disk I/O error" else none, none⟩
        (csvReader [exportHeader, ["A1", "Alice", "Alice", "Yes"], ["A2", "Bob", "", "No"]])).2
      ≠ none ∧
    (importFromCSV [⟨"A0", "Zed", "Vacant", 0⟩]
        ⟨none, none, none, fun _ => none, fun i => if i = 2 then some "disk I/O error" else none, none⟩
        (csvReader [exportHeader, ["A1", "Alice", "Alice", "Yes"], ["A2", "Bob", "", "No"]])).1
      = [⟨"A0", "Zed", "Vacant", 0⟩] ∧
    (importFromExcel [⟨"A0", "Zed", "Vacant", 0⟩]
        ⟨none, none, none, fun _ => none, fun i => if i = 2 then some "disk I/O error" else none, none⟩
        [exportHeader, ["A1", "Alice", "Alice", "Yes"], ["A2", "Bob", "", "No"]]).2 ≠ none ∧
    (importFromExcel [⟨"A0", "Zed", "Vacant", 0⟩]
        ⟨none, none, none, fun _ => none, fun i => if i = 2 then some "disk I/O error" else none, none⟩
        [exportHeader, ["A1", "Alice", "Alice", "Yes"], ["A2", "Bob", "", "No"]]).1
      = [⟨"A0", "Zed", "Vacant", 0⟩] :=
  ⟨by decide, (import_atomic _ _ _ []).1 (by decide), by decide,
    (import_atomic _ _ [] _).2 (by decide)⟩

/-- C6: a successful `importFromCSV` read only records, and its store, like the store of
a successful `importFromExcel`, is the one obtained by dropping the header, dropping the
data rows with fewer than 3 columns and applying `saveApartment` in file order to the
records of columns 0, 1, 2; for the last valid row of an id, that store holds a row of
this id, and every row of this id carries its owner, normalised resident and flag. -/
theorem import_refines_specLoad (db : DB) (f : ImportFaults)
    (reader : List (Except String (List String))) (rows : List (List String)) :
    ((importFromCSV db f reader).2 = none →
      ∃ file : List (List String), reader = file.map Except.ok ∧
        (importFromCSV db f reader).1 = specLoad db file) ∧
    ((importFromExcel db f rows).2 = none → (importFromExcel db f rows).1 = specLoad db rows) ∧
    (∀ (pre post : List (List String)) (row : List String),
      validRows rows = pre ++ row :: post →
      (∀ q ∈ post, q.getD 0 "" ≠ row.getD 0 "") →
      (∃ r ∈ specLoad db rows, r.id = row.getD 0 "") ∧
      (∀ r ∈ specLoad db rows, r.id = row.getD 0 "" →
        r.owner = row.getD 1 "" ∧
        r.resident = (if row.getD 2 "" = "" then "Vacant" else row.getD 2 "") ∧
        r.same_flag = boolToInt (row.getD 1 "" != "" &&
          row.getD 1 "" == (if row.getD 2 "" = "" then "Vacant" else row.getD 2 "")))) := by
  refine ⟨?_, ?_, ?_⟩
  · intro hok
    rcases importFromCSV_cases db f reader with hc | ⟨hd, rest, tx, hreader, hl, hres⟩
    · exact absurd hok hc.2
    · obtain ⟨data, hdata, htx⟩ := csvLoop_ok f rest 1 db tx hl
      refine ⟨hd :: data, ?_, ?_⟩
      · rw [hreader, hdata]; rfl
      · rw [hres, htx]; rfl
  · intro hok
    rcases importFromExcel_cases db f rows with hc | ⟨_, tx, hl, hres⟩
    · exact absurd hok hc.2
    · rw [hres, excelLoop_ok f _ 1 db tx hl]; rfl
  · intro pre post row hsplit hpost
    obtain ⟨hmem, hall⟩ := specLoad_last_wins db rows pre post row hsplit hpost
    refine ⟨⟨_, hmem, rfl⟩, ?_⟩
    intro r hr hrid
    rw [hall r hr hrid]
    exact ⟨rfl, rfl, rfl⟩

/-- Witness for C6: a CSV file with a repeated id, and a sheet with a one-cell row and a
repeated id, load into a non-empty store; the last row of id A1 decides what is stored
under A1. -/
theorem import_refines_specLoad_witness :
    (importFromCSV [⟨"A0", "Zed", "Vacant", 0⟩] ImportFaults.none
        (csvReader [exportHeader, ["A1", "Alice", "Alice", "Yes"], ["A1", "Bob", "", "No"]])).2
      = none ∧
    (∃ file : List (List String),
      csvReader [exportHeader, ["A1", "Alice", "Alice", "Yes"], ["A1", "Bob", "", "No"]]
        = file.map Except.ok ∧
      (importFromCSV [⟨"A0", "Zed", "Vacant", 0⟩] ImportFaults.none
        (csvReader [exportHeader, ["A1", "Alice", "Alice", "Yes"], ["A1", "Bob", "", "No"]])).1
        = specLoad [⟨"A0", "Zed", "Vacant", 0⟩] file) ∧
    (importFromExcel [⟨"A0", "Zed", "Vacant", 0⟩] ImportFaults.none
        [exportHeader, ["A1", "Alice", "Alice", "Yes"], ["A2"], ["A1", "Bob", "", "No"]]).1
      = specLoad [⟨"A0", "Zed", "Vacant", 0⟩]
          [exportHeader, ["A1", "Alice", "Alice", "Yes"], ["A2"], ["A1", "Bob", "", "No"]] ∧
    (∀ r ∈ specLoad [⟨"A0", "Zed", "Vacant", 0⟩]
          [exportHeader, ["A1", "Alice", "Alice", "Yes"], ["A2"], ["A1", "Bob", "", "No"]],
      r.id = "A1" → r.owner = "Bob" ∧ r.resident = "Vacant" ∧ r.same_flag = 0) :=
  ⟨by decide,
    (import_refines_specLoad _ _ _ []).1 (by decide),
    (import_refines_specLoad _ ImportFaults.none [] _).2.1 (by decide),
    ((import_refines_specLoad [⟨"A0", "Zed", "Vacant", 0⟩] ImportFaults.none []
        [exportHeader, ["A1", "Alice", "Alice", "Yes"], ["A2"], ["A1", "Bob", "", "No"]]).2.2
      [["A1", "Alice", "Alice", "Yes"]] [] ["A1", "Bob", "", "No"] (by decide) (by decide)).2⟩

/-- C7 (as stated, refuted): a file whose two data rows have four columns each and
repeat an id loads successfully into the empty store by both importers and leaves one
record, not two. -/
theorem import_count_repeated_id :
    (importFromCSV [] ImportFaults.none
        (csvReader [exportHeader, ["A1", "Alice", "Alice", "Yes"], ["A1", "Bob", "Carol", "No"]])).2
      = none ∧
    getApartmentCount (importFromCSV [] ImportFaults.none
        (csvReader [exportHeader, ["A1", "Alice", "Alice", "Yes"], ["A1", "Bob", "Carol", "No"]])).1
      none = 1 ∧
    (importFromExcel [] ImportFaults.none
        [exportHeader, ["A1", "Alice", "Alice", "Yes"], ["A1", "Bob", "Carol", "No"]]).2 = none ∧
    getApartmentCount (importFromExcel [] ImportFaults.none
        [exportHeader, ["A1", "Alice", "Alice", "Yes"], ["A1", "Bob", "Carol", "No"]]).1 none = 1 ∧
    (([exportHeader, ["A1", "Alice", "Alice", "Yes"], ["A1", "Bob", "Carol", "No"]].drop 1).filter
      (fun row => decide (3 ≤ row.length))).length = 2 := by
  decide

/-- C7 (amended): after a successful load into the empty store by either importer, the
record count is the number of distinct ids among the data rows with at least 3 columns
(shorter data rows are not counted); it is the number of those rows when their ids are
pairwise distinct. -/
theorem import_count_distinct_ids (f : ImportFaults) (rows : List (List String)) :
    ((importFromCSV [] f (rows.map Except.ok)).2 = none →
      getApartmentCount (importFromCSV [] f (rows.map Except.ok)).1 none
        = (((validRows rows).map (fun row => row.getD 0 "")).dedup.length : Int)) ∧
    ((importFromExcel [] f rows).2 = none →
      getApartmentCount (importFromExcel [] f rows).1 none
        = (((validRows rows).map (fun row => row.getD 0 "")).dedup.length : Int)) ∧
    (((validRows rows).map (fun row => row.getD 0 "")).Nodup →
      (((validRows rows).map (fun row => row.getD 0 "")).dedup.length : Int)
        = ((validRows rows).length : Int)) := by
  refine ⟨?_, ?_, ?_⟩
  · intro hok
    rcases importFromCSV_cases [] f (rows.map Except.ok) with hc | ⟨hd, rest, tx, hreader, hl, hres⟩
    · exact absurd hok hc.2
    · obtain ⟨data, hdata, htx⟩ := csvLoop_ok f rest 1 [] tx hl
      have hrows : rows = hd :: data := by
        have h1 : rows.map (Except.ok : List String → Except String (List String))
            = (hd :: data).map Except.ok := by rw [hreader, hdata]; rfl
        exact List.map_injective_iff.2 (fun a b h => Except.ok.inj h) h1
      have hspec : tx = specLoad [] rows := by rw [htx, hrows]; rfl
      rw [hres, hspec]
      simp only [getApartmentCount]
      rw [specLoad_count]
  · intro hok
    rcases importFromExcel_cases [] f rows with hc | ⟨_, tx, hl, hres⟩
    · exact absurd hok hc.2
    · have hspec : tx = specLoad [] rows := by rw [excelLoop_ok f _ 1 [] tx hl]; rfl
      rw [hres, hspec]
      simp only [getApartmentCount]
      rw [specLoad_count]
  · intro hnd
    rw [hnd.dedup, List.length_map]

/-- Witness for C7 (amended): a CSV file that is read back as written and repeats an
id, a sheet with a one-cell row and a repeated id, and a sheet with distinct ids. -/
theorem import_count_distinct_ids_witness :
    csvReader [exportHeader, ["A1", "Alice", "Alice", "Yes"], ["A1", "Bob", "", "No"],
        ["A3", "", "Vacant", "No"]]
      = [exportHeader, ["A1", "Alice", "Alice", "Yes"], ["A1", "Bob", "", "No"],
        ["A3", "", "Vacant", "No"]].map Except.ok ∧
    (importFromCSV [] ImportFaults.none
        ([exportHeader, ["A1", "Alice", "Alice", "Yes"], ["A1", "Bob", "", "No"],
          ["A3", "", "Vacant", "No"]].map Except.ok)).2 = none ∧
    getApartmentCount (importFromCSV [] ImportFaults.none
        ([exportHeader, ["A1", "Alice", "Alice", "Yes"], ["A1", "Bob", "", "No"],
          ["A3", "", "Vacant", "No"]].map Except.ok)).1 none = 2 ∧
    getApartmentCount (importFromExcel [] ImportFaults.none
        [exportHeader, ["A1", "Alice", "Alice", "Yes"], ["A2"], ["A1", "Bob", "", "No"],
          ["A3", "", "Vacant", "No"]]).1 none = 2 ∧
    (((validRows [exportHeader, ["A1", "Alice", "Alice", "Yes"], ["A2"],
        ["A3", "", "Vacant", "No"]]).map (fun row => row.getD 0 "")).dedup.length : Int) = 2 :=
  ⟨rfl, by decide,
    ((import_count_distinct_ids ImportFaults.none _).1 (by decide)).trans (by decide),
    ((import_count_distinct_ids ImportFaults.none _).2.1 (by decide)).trans (by decide),
    ((import_count_distinct_ids ImportFaults.none _).2.2 (by decide)).trans (by decide)⟩

/-! ## Invariant of the reachable stores -/

/-- C8: in every store reachable from the empty store by `saveApartment`,
`deleteApartment`, `importFromCSV` and `importFromExcel` with any faults, every row has a
non-empty resident, its flag encodes and decodes to `owner != "" && owner == resident`,
and no two rows share an id. -/
theorem stored_record_invariant (db : DB) (h : Reachable db) :
    (∀ r ∈ db, r.resident ≠ "" ∧
      r.same_flag = boolToInt (r.owner != "" && r.owner == r.resident) ∧
      intToBool r.same_flag = (r.owner != "" && r.owner == r.resident)) ∧
    (db.map Row.id).Nodup := by
  have hinv := reachable_storeInv db h
  refine ⟨?_, hinv.2⟩
  intro r hr
  obtain ⟨h1, h2⟩ := hinv.1 r hr
  refine ⟨h1, h2, ?_⟩
  rw [h2]
  cases (r.owner != "" && r.owner == r.resident) <;> rfl

/-- Witness for C8: the store after one save. -/
theorem stored_record_invariant_witness :
    Reachable (saveApartment [] SaveFaults.none ⟨"A1", "Alice", "Alice", false⟩).1 ∧
    ((saveApartment [] SaveFaults.none ⟨"A1", "Alice", "Alice", false⟩).1.map Row.id).Nodup :=
  ⟨Reachable.save _ _ _ Reachable.init,
    (stored_record_invariant _ (Reachable.save _ _ _ Reachable.init)).2⟩

/-! ## Positional access -/

/-- C9: on a store with distinct ids and `n = getApartmentCount` rows, the rows in
`ORDER BY id` order are a rearrangement of the stored rows, strictly ascending by id;
`getApartmentByIndex i` for `0 ≤ i < n` is the `i`-th of them with the flag decoded, so
the results for `0, ..., n-1` list every stored row once in ascending order; every index
`≥ n` gives the zero `Apartment`. -/
theorem getApartmentByIndex_positional (db : DB) (hpk : PrimaryKey db) :
    (orderById db).Perm db ∧
    (orderById db).Pairwise (fun a b => a.id < b.id) ∧
    (∀ i : Int, 0 ≤ i → i < getApartmentCount db none →
      ∃ r : Row, (orderById db)[i.toNat]? = some r ∧
        getApartmentByIndex db none none i = ⟨r.id, r.owner, r.resident, intToBool r.same_flag⟩) ∧
    (List.range db.length).map (fun i : Nat => getApartmentByIndex db none none (i : Int))
      = (orderById db).map (fun r => ⟨r.id, r.owner, r.resident, intToBool r.same_flag⟩) ∧
    (∀ i : Int, getApartmentCount db none ≤ i →
      getApartmentByIndex db none none i = Apartment.zero) ∧
    getApartmentByIndex db none none (getApartmentCount db none) = Apartment.zero := by
  have hlen := orderById_length db
  have hin : ∀ (k : Nat) (hk : k < db.length),
      getApartmentByIndex db none none (k : Int)
        = (fun r : Row => Apartment.mk r.id r.owner r.resident (intToBool r.same_flag))
            ((orderById db).get ⟨k, by omega⟩) := by
    intro k hk
    have hk2 : k < (orderById db).length := by omega
    simp only [getApartmentByIndex, Int.toNat_ofNat, List.head?_drop,
      List.getElem?_eq_getElem hk2]
    rfl
  have hout : ∀ i : Int, getApartmentCount db none ≤ i →
      getApartmentByIndex db none none i = Apartment.zero := by
    intro i hi
    simp only [getApartmentCount] at hi
    have hk : (orderById db).length ≤ i.toNat := by omega
    simp only [getApartmentByIndex, List.head?_drop, List.getElem?_eq_none hk]
  refine ⟨orderById_perm db, orderById_strict db hpk, ?_, ?_, hout, hout _ (le_refl _)⟩
  · intro i h0 hi
    simp only [getApartmentCount] at hi
    have hk : i.toNat < db.length := by omega
    have hk2 : i.toNat < (orderById db).length := by omega
    refine ⟨(orderById db).get ⟨i.toNat, hk2⟩, List.getElem?_eq_getElem hk2, ?_⟩
    have hi2 : ((i.toNat : Nat) : Int) = i := Int.toNat_of_nonneg h0
    exact (congrArg (getApartmentByIndex db none none) hi2).symm.trans (hin i.toNat hk)
  · apply List.ext_getElem
    · simp [hlen]
    · intro k h1 h2
      simp only [List.length_map, List.length_range] at h1
      simp only [List.getElem_map, List.getElem_range]
      rw [hin k h1]
      rfl

/-- Witness for C9: a two-row store stored in descending id order. -/
theorem getApartmentByIndex_positional_witness :
    PrimaryKey [⟨"B2", "Bob", "Vacant", 0⟩, ⟨"A1", "Alice", "Alice", 1⟩] ∧
    (List.range 2).map (fun i : Nat =>
        getApartmentByIndex [⟨"B2", "Bob", "Vacant", 0⟩, ⟨"A1", "Alice", "Alice", 1⟩] none none (i : Int))
      = [⟨"A1", "Alice", "Alice", true⟩, ⟨"B2", "Bob", "Vacant", false⟩] ∧
    getApartmentByIndex [⟨"B2", "Bob", "Vacant", 0⟩, ⟨"A1", "Alice", "Alice", 1⟩] none none 2
      = Apartment.zero :=
  ⟨by decide,
    ((getApartmentByIndex_positional
      [⟨"B2", "Bob", "Vacant", 0⟩, ⟨"A1", "Alice", "Alice", 1⟩] (by decide)).2.2.2.1).trans
      (by decide),
    (getApartmentByIndex_positional
      [⟨"B2", "Bob", "Vacant", 0⟩, ⟨"A1", "Alice", "Alice", 1⟩] (by decide)).2.2.2.2.2⟩

/-! ## Export followed by import -/

/-- C4 (as stated, refuted): the empty store is reachable, `exportToExcel` writes a sheet
with the header row only, and `importFromExcel` rejects that sheet; and the reachable
store whose one record has an owner and resident containing a carriage return and line
feed is exported by `exportToCSV`, read back by the CSV reader without the carriage
return, and imported with an owner and a resident that differ from the stored ones. -/
theorem export_import_roundtrip_fails :
    Reachable [] ∧
    exportToExcel [] ExportFaults.none = (some [exportHeader], none) ∧
    importFromExcel [] ImportFaults.none [exportHeader]
      = ([], some (GoError.failure "not enough rows in Excel file")) ∧
    Reachable [⟨"A1", "Al\r\nice", "Al\r\nice", 1⟩] ∧
    exportToCSV [⟨"A1", "Al\r\nice", "Al\r\nice", 1⟩] ExportFaults.none
      = (some [exportHeader, ["A1", "Al\r\nice", "Al\r\nice", "Yes"]], none) ∧
    importFromCSV [] ImportFaults.none
        (csvReader [exportHeader, ["A1", "Al\r\nice", "Al\r\nice", "Yes"]])
      = ([⟨"A1", "Al\nice", "Al\nice", 1⟩], none) ∧
    ([⟨"A1", "Al\nice", "Al\nice", 1⟩] : DB) ≠ [⟨"A1", "Al\r\nice", "Al\r\nice", 1⟩] :=
  ⟨Reachable.init, by decide, by decide,
    Reachable.save [] SaveFaults.none ⟨"A1", "Al\r\nice", "Al\r\nice", false⟩ Reachable.init,
    by decide, by decide, by decide⟩

/-- C4 (amended): for every reachable store, without faults, both exporters write the
header followed by one row per record in ascending id order.  When no stored id, owner
or resident contains a carriage return directly followed by a line feed, `importFromCSV`
of the written file, as the CSV reader reads it back, into the empty store succeeds and
yields the records of the original store (in id order), the empty store included.  When
the store has at least one record and the sheet handed to `importFromExcel` holds the
rows as they were written, `importFromExcel` into the empty store succeeds and yields the
records of the original store; for the empty store it returns the error "not enough rows
in Excel file" on the header-only sheet and the target stays empty. -/
theorem export_import_roundtrip (db : DB) (h : Reachable db) :
    exportToCSV db ExportFaults.none
      = (some (exportHeader :: (orderById db).map exportRow), none) ∧
    exportToExcel db ExportFaults.none
      = (some (exportHeader :: (orderById db).map exportRow), none) ∧
    (orderById db).Perm db ∧
    ((∀ r ∈ db, hasCRLF r.id = false ∧ hasCRLF r.owner = false ∧ hasCRLF r.resident = false) →
      importFromCSV [] ImportFaults.none
          (csvReader (exportHeader :: (orderById db).map exportRow))
        = (orderById db, none)) ∧
    (∀ sheet : List (List String), sheet = exportHeader :: (orderById db).map exportRow →
      db ≠ [] → importFromExcel [] ImportFaults.none sheet = (orderById db, none)) ∧
    (∀ sheet : List (List String), sheet = exportHeader :: (orderById db).map exportRow →
      db = [] → importFromExcel [] ImportFaults.none sheet
        = ([], some (GoError.failure "not enough rows in Excel file"))) := by
  have hinv := orderById_storeInv db (reachable_storeInv db h)
  refine ⟨exportToCSV_none db, exportToExcel_none db, orderById_perm db, ?_, ?_, ?_⟩
  · intro hcr
    rw [csvReader_exported (orderById db)
      (fun r hr => hcr r ((orderById_perm db).mem_iff.1 hr))]
    exact importFromCSV_exported _ hinv.1 hinv.2
  · intro sheet hsheet hne
    rw [hsheet]
    apply importFromExcel_exported _ hinv.1 hinv.2
    intro hnil
    apply hne
    have := orderById_length db
    rw [hnil] at this
    exact List.length_eq_zero.1 this.symm
  · intro sheet hsheet hnil
    subst hnil
    rw [hsheet]
    rfl

/-- Witness for C4 (amended): the store after two saves, the second with an empty
resident; both round trips return the two records in id order, and the header-only
sheet of the empty store is rejected. -/
theorem export_import_roundtrip_witness :
    Reachable [⟨"B2", "Bob", "Bob", 1⟩, ⟨"A1", "Alice", "Vacant", 0⟩] ∧
    (∀ r ∈ ([⟨"B2", "Bob", "Bob", 1⟩, ⟨"A1", "Alice", "Vacant", 0⟩] : DB),
      hasCRLF r.id = false ∧ hasCRLF r.owner = false ∧ hasCRLF r.resident = false) ∧
    importFromCSV [] ImportFaults.none
        (csvReader [exportHeader, ["A1", "Alice", "Vacant", "No"], ["B2", "Bob", "Bob", "Yes"]])
      = ([⟨"A1", "Alice", "Vacant", 0⟩, ⟨"B2", "Bob", "Bob", 1⟩], none) ∧
    importFromExcel [] ImportFaults.none
        [exportHeader, ["A1", "Alice", "Vacant", "No"], ["B2", "Bob", "Bob", "Yes"]]
      = ([⟨"A1", "Alice", "Vacant", 0⟩, ⟨"B2", "Bob", "Bob", 1⟩], none) ∧
    importFromExcel [] ImportFaults.none [exportHeader]
      = ([], some (GoError.failure "not enough rows in Excel file")) :=
  ⟨Reachable.save _ SaveFaults.none ⟨"A1", "Alice", "", true⟩
      (Reachable.save [] SaveFaults.none ⟨"B2", "Bob", "Bob", false⟩ Reachable.init),
    by decide,
    (export_import_roundtrip [⟨"B2", "Bob", "Bob", 1⟩, ⟨"A1", "Alice", "Vacant", 0⟩]
      (Reachable.save _ SaveFaults.none ⟨"A1", "Alice", "", true⟩
        (Reachable.save [] SaveFaults.none ⟨"B2", "Bob", "Bob", false⟩ Reachable.init))).2.2.2.1
      (by decide),
    (export_import_roundtrip [⟨"B2", "Bob", "Bob", 1⟩, ⟨"A1", "Alice", "Vacant", 0⟩]
      (Reachable.save _ SaveFaults.none ⟨"A1", "Alice", "", true⟩
        (Reachable.save [] SaveFaults.none ⟨"B2", "Bob", "Bob", false⟩ Reachable.init))).2.2.2.2.1
      _ rfl (by decide),
    (export_import_roundtrip [] Reachable.init).2.2.2.2.2 _ rfl rfl⟩

end ApartmentManager
